import Mathlib

/-!
Verification of the Ussimo order-to-invoice synchronisation server.

The JavaScript source performs all monetary arithmetic with
`parseFloat(x.toFixed(2))`, i.e. it rounds to two decimal places
(half away from zero towards plus infinity, which is JavaScript's
`toFixed` tie-breaking rule) at every step.  We embed that arithmetic
over the exact rationals: `round2` is the two-decimal rounding used
everywhere, and monetary values are rationals that are integer
multiples of one cent.
-/

namespace Ussimo

/-- Two-decimal rounding, `parseFloat(x.toFixed(2))` in the source:
round half up (towards plus infinity) at the second decimal. -/
def round2 (q : ℚ) : ℚ := ((Int.floor (q * 100 + 1 / 2) : ℤ) : ℚ) / 100

/-- A rational is a whole number of cents (a 2-decimal value). -/
def IsCents (q : ℚ) : Prop := ∃ n : ℤ, q = (n : ℚ) / 100

theorem isCents_round2 (q : ℚ) : IsCents (round2 q) :=
  ⟨Int.floor (q * 100 + 1 / 2), rfl⟩

theorem IsCents.round2_eq {q : ℚ} (h : IsCents q) : round2 q = q := by
  obtain ⟨n, rfl⟩ := h
  have h1 : (n : ℚ) / 100 * 100 + 1 / 2 = (n : ℚ) + 1 / 2 := by
    field_simp
  rw [round2, h1, Int.floor_int_add]
  have h2 : Int.floor ((1 : ℚ) / 2) = 0 := by
    rw [Int.floor_eq_zero_iff]
    constructor <;> norm_num
  rw [h2]
  push_cast
  ring

theorem isCents_zero : IsCents 0 := ⟨0, by norm_num⟩

theorem IsCents.add {a b : ℚ} (ha : IsCents a) (hb : IsCents b) :
    IsCents (a + b) := by
  obtain ⟨n, rfl⟩ := ha
  obtain ⟨m, rfl⟩ := hb
  exact ⟨n + m, by push_cast; ring⟩

theorem IsCents.neg {a : ℚ} (ha : IsCents a) : IsCents (-a) := by
  obtain ⟨n, rfl⟩ := ha
  exact ⟨-n, by push_cast; ring⟩

theorem IsCents.sub {a b : ℚ} (ha : IsCents a) (hb : IsCents b) :
    IsCents (a - b) := by
  rw [sub_eq_add_neg]
  exact ha.add hb.neg

theorem isCents_sum {l : List ℚ} (h : ∀ x ∈ l, IsCents x) :
    IsCents l.sum := by
  induction l with
  | nil => simpa using isCents_zero
  | cons a l ih =>
    rw [List.sum_cons]
    exact (h a (by simp)).add (ih fun x hx => h x (by simp [hx]))

theorem round2_zero : round2 0 = 0 := isCents_zero.round2_eq

/-! ## Data model

WooCommerce order fields are strings in the source; numeric fields are
read with `parseFloat`/`parseInt`.  We model a numeric field as
`Option ℚ` where `none` means the field is absent or empty (falsy in
the source's truthiness tests); quantities are natural numbers. -/

/-- Estonian VAT rate used throughout the source (`1.22` divisor, `0.22` factor). -/
def vatRate : ℚ := 22 / 100

structure WooLineItem where
  name : String
  sku : Option String
  productId : Option ℕ
  quantity : ℕ
  price : Option ℚ
  subtotal : Option ℚ
  subtotalTax : Option ℚ
  total : Option ℚ
  totalTax : Option ℚ
deriving DecidableEq

structure WooShippingLine where
  total : Option ℚ
  totalTax : Option ℚ
deriving DecidableEq

structure WooCouponLine where
  code : Option String
  discount : Option ℚ
  discountTax : Option ℚ
deriving DecidableEq

structure WooOrder where
  id : ℕ
  pricesIncludeTax : Bool
  lineItems : List WooLineItem
  shippingLines : List WooShippingLine
  couponLines : List WooCouponLine
  total : Option ℚ
  billingFirstName : String
  billingLastName : String
deriving DecidableEq

/-- One Merit invoice row as built by `prepareInvoiceRowsFromWooOrder`. -/
structure InvoiceRow where
  itemCode : String
  itemDescription : String
  itemType : ℕ
  uomName : String
  quantity : ℕ
  price : ℚ
  discountPct : ℚ
  discountAmount : ℚ
  taxId : String
  locationCode : ℕ
deriving DecidableEq

/-! ## Line-item normalizer (`prepareInvoiceRowsFromWooOrder`) -/

/-- Product name to Merit code/description mapping from the source. -/
def productMapping (name : String) : Option (String × String × String) :=
  if name = "Toalillemuld biohuumusega" then
    some ("4744278011219", "Toalillemuld 2, 5 l", "tk")
  else if name = "Biohuumuse kontsentraat mahekasvatuseks" then
    some ("4742022540015", "Biohuumuse kontsentraat mahekasvatuseks, 500ml", "tk")
  else if name = "Biohuumuse kontsentraat lilledele" then
    some ("4742022540022", "Biohuumuse kontsentraat Lilledele, 500ml", "tk")
  else if name = "Ettekasvatussegu biohuumusega" then
    some ("4744278011011", "Ettekasvatussegu biohuumusega 5 l", "tk")
  else if name = "Rammus püsikusegu biohuumusega" then
    some ("4744278011110", "Rammus püsikusegu biohuumusega 5, 0 l", "tk")
  else if name = "Biohuumus 2, 5 l Ussimo" then
    some ("4744278011318", "Biohuumus 2, 5 l Ussimo", "tk")
  else if name = "Biohuumus 5 l Ussimo" then
    some ("4744278010014", "Biohuumus 5 l Ussimo", "tk")
  else if name = "Biohuumus Universaalne Maheväetis 5l" then
    some ("4744278010014", "Biohuumus 5 l Ussimo", "tk")
  else if name = "Vertikaalne taimekast" then
    some ("4744278010038", "Vertikaalne taimekast", "tk")
  else none

/-- The bundle's pre-tax total for the "Toataimede Uus Algus" special item,
following the source's `total` / `subtotal` / `price` / default priority. -/
def bundleTotalPrice (pricesIncludeTax : Bool) (item : WooLineItem) : ℚ :=
  match item.total with
  | some tot =>
    match item.totalTax with
    | some tax => round2 (tot - tax)
    | none => if pricesIncludeTax then round2 (tot / (122 / 100)) else tot
  | none =>
    match item.subtotal with
    | some st =>
      match item.subtotalTax with
      | some stax => round2 (st - stax)
      | none => if pricesIncludeTax then round2 (st / (122 / 100)) else st
    | none =>
      match item.price with
      | some p =>
        let unitPrice := if pricesIncludeTax then round2 (p / (122 / 100)) else p
        round2 (unitPrice * item.quantity)
      | none => (82 / 10) * item.quantity

/-- Reference retail value of the bundle's constituents:
`4·Q` soil units at 2.15 plus `2·Q` concentrate units at 2.99. -/
def bundleTotalRetailValue (item : WooLineItem) : ℚ :=
  ((4 * item.quantity : ℕ) : ℚ) * (215 / 100) +
    ((2 * item.quantity : ℕ) : ℚ) * (299 / 100)

/-- Discount factor: bundle pre-tax total over total reference value. -/
def bundleDiscountFactor (pricesIncludeTax : Bool) (item : WooLineItem) : ℚ :=
  bundleTotalPrice pricesIncludeTax item / bundleTotalRetailValue item

/-- Soil constituent price after the discount factor, before residual correction. -/
def discountedSoilPrice (pricesIncludeTax : Bool) (item : WooLineItem) : ℚ :=
  round2 ((215 / 100) * bundleDiscountFactor pricesIncludeTax item)

/-- Concentrate constituent price after the discount factor (never corrected). -/
def discountedConcentratePrice (pricesIncludeTax : Bool) (item : WooLineItem) : ℚ :=
  round2 ((299 / 100) * bundleDiscountFactor pricesIncludeTax item)

/-- Residual after rounding: bundle total minus the expanded lines' total. -/
def bundleDifference (pricesIncludeTax : Bool) (item : WooLineItem) : ℚ :=
  round2 (bundleTotalPrice pricesIncludeTax item -
    (round2 (discountedSoilPrice pricesIncludeTax item * ((4 * item.quantity : ℕ) : ℚ)) +
      round2 (discountedConcentratePrice pricesIncludeTax item * ((2 * item.quantity : ℕ) : ℚ))))

/-- Final soil price: when the residual is nonzero, add the rounded
per-unit share of the residual (proportional allocation by reference
value, divided by the soil unit count, rounded to 2 decimals). -/
def finalSoilPrice (pricesIncludeTax : Bool) (item : WooLineItem) : ℚ :=
  if bundleDifference pricesIncludeTax item ≠ 0 then
    round2 (discountedSoilPrice pricesIncludeTax item +
      round2 (bundleDifference pricesIncludeTax item *
        (((4 * item.quantity : ℕ) : ℚ) * (215 / 100) / bundleTotalRetailValue item) /
        ((4 * item.quantity : ℕ) : ℚ)))
  else discountedSoilPrice pricesIncludeTax item

/-- Expansion of the virtual bundle "Toataimede Uus Algus" into a soil line
(4 units per bundle, reference price 2.15) and a concentrate line
(2 units per bundle, reference price 2.99), with the discount factor and
residual-correction steps of the source. -/
def expandBundle (vatTaxId : String) (pricesIncludeTax : Bool)
    (item : WooLineItem) : List InvoiceRow :=
  [{ itemCode := "4744278011219", itemDescription := "Toalillemuld 2, 5 l",
     itemType := 3, uomName := "tk", quantity := 4 * item.quantity,
     price := finalSoilPrice pricesIncludeTax item,
     discountPct := 0, discountAmount := 0,
     taxId := vatTaxId, locationCode := 1 },
   { itemCode := "4742022540022",
     itemDescription := "Biohuumuse kontsentraat Lilledele, 500ml",
     itemType := 3, uomName := "tk", quantity := 2 * item.quantity,
     price := discountedConcentratePrice pricesIncludeTax item,
     discountPct := 0, discountAmount := 0,
     taxId := vatTaxId, locationCode := 1 }]

/-- Price of a regular (non-bundle) line item when the `subtotal` branch
does not apply: use `price` (tax-adjusted when prices include tax), else 0. -/
def regularPriceFromPrice (pricesIncludeTax : Bool) (item : WooLineItem) : ℚ :=
  match item.price with
  | some p => if pricesIncludeTax then round2 (p / (122 / 100)) else round2 p
  | none => 0

/-- Normalized pre-tax unit price of a regular (non-bundle) line item,
following the source's `subtotal` / `price` / zero priority. -/
def regularItemPrice (pricesIncludeTax : Bool) (item : WooLineItem) : ℚ :=
  match item.subtotal with
  | some st =>
    if 0 < item.quantity then
      if pricesIncludeTax then
        match item.subtotalTax with
        | some stax => round2 ((st - stax) / item.quantity)
        | none => round2 (st / item.quantity)
      else round2 (st / item.quantity)
    else regularPriceFromPrice pricesIncludeTax item
  | none => regularPriceFromPrice pricesIncludeTax item

/-- Resolve product code/description/unit for a regular line item:
the fixed mapping, else raw SKU (or product id, or "NOSKU") with the raw name. -/
def resolveProductInfo (item : WooLineItem) : String × String × String :=
  match productMapping item.name with
  | some info => info
  | none =>
    let code :=
      match item.sku with
      | some s => s
      | none =>
        match item.productId with
        | some pid => toString pid
        | none => "NOSKU"
    (code, item.name, "tk")

/-- Rows contributed by one WooCommerce line item. -/
def lineItemRows (vatTaxId : String) (pricesIncludeTax : Bool)
    (item : WooLineItem) : List InvoiceRow :=
  if item.name = "Toataimede Uus Algus" then
    expandBundle vatTaxId pricesIncludeTax item
  else
    [{ itemCode := (resolveProductInfo item).1,
       itemDescription := (resolveProductInfo item).2.1, itemType := 3,
       uomName := (resolveProductInfo item).2.2, quantity := item.quantity,
       price := regularItemPrice pricesIncludeTax item,
       discountPct := 0, discountAmount := 0,
       taxId := vatTaxId, locationCode := 1 }]

/-- Shipping price after removing the tax when prices include tax and the
shipping tax field is present. -/
def shippingNetPrice (pricesIncludeTax : Bool) (s : WooShippingLine) : ℚ :=
  if pricesIncludeTax then
    match s.totalTax with
    | some tax => round2 (round2 (s.total.getD 0) - tax)
    | none => round2 (s.total.getD 0)
  else round2 (s.total.getD 0)

/-- Shipping row: omitted when the shipping total is not strictly positive;
tax is removed afterwards when prices include tax and a tax field is present. -/
def shippingRow (vatTaxId : String) (pricesIncludeTax : Bool)
    (s : WooShippingLine) : Option InvoiceRow :=
  if round2 (s.total.getD 0) ≤ 0 then none
  else
    some { itemCode := "Transport", itemDescription := "Pakiautomaat",
           itemType := 3, uomName := "tk", quantity := 1,
           price := shippingNetPrice pricesIncludeTax s,
           discountPct := 0, discountAmount := 0,
           taxId := vatTaxId, locationCode := 1 }

/-- Pre-tax coupon discount amount: the tax is removed when prices include
tax and the coupon tax field is present. -/
def couponNetDiscount (pricesIncludeTax : Bool) (c : WooCouponLine) : ℚ :=
  if pricesIncludeTax then
    match c.discountTax with
    | some dt => round2 (c.discount.getD 0 - dt)
    | none => c.discount.getD 0
  else c.discount.getD 0

/-- Coupon row: omitted when the discount is not strictly positive;
the row price is the negated (absolute) pre-tax discount amount. -/
def couponRow (vatTaxId : String) (pricesIncludeTax : Bool)
    (c : WooCouponLine) : Option InvoiceRow :=
  if c.discount.getD 0 ≤ 0 then none
  else
    some { itemCode := "DISCOUNT",
           itemDescription := "Allahindlus (" ++ c.code.getD "Discount" ++ ")",
           itemType := 3, uomName := "tk", quantity := 1,
           price := round2 (-|couponNetDiscount pricesIncludeTax c|),
           discountPct := 0, discountAmount := 0,
           taxId := vatTaxId, locationCode := 1 }

/-- `prepareInvoiceRowsFromWooOrder`: product rows in source order, then
shipping rows, then discount rows. -/
def prepareInvoiceRowsFromWooOrder (vatTaxId : String) (order : WooOrder) :
    List InvoiceRow :=
  order.lineItems.flatMap (lineItemRows vatTaxId order.pricesIncludeTax)
    ++ order.shippingLines.filterMap (shippingRow vatTaxId order.pricesIncludeTax)
    ++ order.couponLines.filterMap (couponRow vatTaxId order.pricesIncludeTax)

/-! ## Total reconciler and invoice assembler
(`createInvoiceFromWooCommerceOrder`) -/

/-- Pre-tax contribution of one row: `price × quantity`. -/
def rowTotal (r : InvoiceRow) : ℚ := r.price * (r.quantity : ℚ)

/-- Sum of the rows' pre-tax contributions (the source's `reduce`). -/
def rowsTotal (rows : List InvoiceRow) : ℚ := (rows.map rowTotal).sum

/-- Merit's predicted tax: per-row tax rounded to 2 decimals, then summed. -/
def predictedTaxSum (rows : List InvoiceRow) : ℚ :=
  (rows.map (fun r => round2 (rowTotal r * vatRate))).sum

/-- The naive Merit total: rounded rows total plus aggregate-rounded VAT. -/
def naiveTotalOf (rows : List InvoiceRow) : ℚ :=
  let rowsTotalRounded := round2 (rowsTotal rows)
  round2 (rowsTotalRounded + round2 (rowsTotalRounded * vatRate))

/-- The difference the reconciler tries to compensate. -/
def totalDifferenceOf (wooTotal : ℚ) (rows : List InvoiceRow) : ℚ :=
  round2 (wooTotal - naiveTotalOf rows)

/-- The source's `forEach` loop finding the index of the largest
`price × quantity`, starting from a best total of `0` and index `-1`
(modelled as `none`); a row is selected only on a strict improvement,
so the first occurrence of the maximum wins. -/
def findLargestFrom : List InvoiceRow → ℕ → ℚ → Option ℕ → Option ℕ
  | [], _, _, best => best
  | r :: rs, idx, bestTotal, best =>
    if bestTotal < rowTotal r then findLargestFrom rs (idx + 1) (rowTotal r) (some idx)
    else findLargestFrom rs (idx + 1) bestTotal best

def findLargestIndex (rows : List InvoiceRow) : Option ℕ :=
  findLargestFrom rows 0 0 none

/-- The reconciler's price-adjustment step: when the naive total differs
from the WooCommerce total, move the whole pre-tax difference onto the
largest row's unit price (rounded to 2 decimals). -/
def adjustInvoiceRows (wooTotal : ℚ) (rows : List InvoiceRow) : List InvoiceRow :=
  if totalDifferenceOf wooTotal rows = 0 then rows
  else
    match findLargestIndex rows with
    | none => rows
    | some i =>
      match rows[i]? with
      | none => rows
      | some row =>
        let rowsTotalRounded := round2 (rowsTotal rows)
        let targetPreTaxTotal := round2 (wooTotal / (1 + vatRate))
        let exactPreTaxDifference := round2 (targetPreTaxTotal - rowsTotalRounded)
        let currentTotal := row.price * (row.quantity : ℚ)
        let adjustedItemTotal := round2 (currentTotal + exactPreTaxDifference)
        let adjustedPrice := round2 (adjustedItemTotal / (row.quantity : ℚ))
        rows.set i { row with price := adjustedPrice }

/-- The invoice comment template from the assembler:
`Ussimo \n#<orderId>\n<customerName>`.  JavaScript strings are modelled
as lists of characters. -/
def mkHComment (orderId customerName : List Char) : List Char :=
  'U' :: 's' :: 's' :: 'i' :: 'm' :: 'o' :: ' ' :: '\n' :: '#' ::
    (orderId ++ '\n' :: customerName)

/-- The assembled invoice document (the fields the claims are about). -/
structure InvoiceData where
  rows : List InvoiceRow
  totalAmount : ℚ
  taxAmount : ℚ
  roundingAmount : ℚ
  hComment : List Char
deriving DecidableEq

/-- Final assembly: totals recomputed from the (possibly adjusted) rows and
the rounding amount compensated by the predicted per-line tax drift. -/
def assembleInvoice (wooTotal : ℚ) (rows : List InvoiceRow)
    (order : WooOrder) : InvoiceData :=
  let exactRowsTotal := round2 (rowsTotal rows)
  let calculatedTaxAmount := round2 (exactRowsTotal * vatRate)
  let expectedMeritTotal := round2 (exactRowsTotal + calculatedTaxAmount)
  let roundingAmount0 := round2 (wooTotal - expectedMeritTotal)
  let predictedMeritTaxRounded := round2 (predictedTaxSum rows)
  let taxDifference := round2 (predictedMeritTaxRounded - calculatedTaxAmount)
  let roundingAmount := round2 (roundingAmount0 - taxDifference)
  { rows := rows
    totalAmount := exactRowsTotal
    taxAmount := calculatedTaxAmount
    roundingAmount := roundingAmount
    hComment := mkHComment (toString order.id).data
      (order.billingFirstName ++ " " ++ order.billingLastName).data }

/-- `createInvoiceFromWooCommerceOrder`: validate the order total, build
rows, run the price adjustment, and assemble the invoice document. -/
def createInvoiceFromWooCommerceOrder (vatTaxId : String) (order : WooOrder) :
    Except String InvoiceData :=
  match order.total with
  | none => .error "Invalid WooCommerce order total"
  | some t =>
    let wooTotal := round2 t
    if wooTotal ≤ 0 then .error "Invalid WooCommerce order total"
    else
      let rows := adjustInvoiceRows wooTotal
        (prepareInvoiceRowsFromWooOrder vatTaxId order)
      .ok (assembleInvoice wooTotal rows order)

/-! ## Reconciliation invariant (claim C1) -/

theorem isCents_predictedTaxSum (rows : List InvoiceRow) :
    IsCents (predictedTaxSum rows) := by
  apply isCents_sum
  intro x hx
  obtain ⟨r, _, rfl⟩ := List.mem_map.mp hx
  exact isCents_round2 _

theorem assembleInvoice_reconciles (w : ℚ) (rows : List InvoiceRow)
    (order : WooOrder) (hw : IsCents w) :
    (assembleInvoice w rows order).totalAmount + predictedTaxSum rows +
      (assembleInvoice w rows order).roundingAmount = w := by
  have hS : IsCents (round2 (rowsTotal rows)) := isCents_round2 _
  have hC : IsCents (round2 (round2 (rowsTotal rows) * vatRate)) := isCents_round2 _
  have hP : IsCents (predictedTaxSum rows) := isCents_predictedTaxSum rows
  simp only [assembleInvoice]
  rw [(hS.add hC).round2_eq, hP.round2_eq, (hP.sub hC).round2_eq,
    (hw.sub (hS.add hC)).round2_eq,
    ((hw.sub (hS.add hC)).sub (hP.sub hC)).round2_eq]
  ring

/-- C1: for every source order accepted by the pipeline (its grand total
parses to a positive 2-decimal number and at least one invoice row is
produced), the assembled invoice satisfies
`subtotal + predictedTax + roundingCorrection = sourceGrandTotal`,
where `subtotal` is the invoice's `TotalAmount` (rows total rounded to
2 decimals), `predictedTax` is the sum over rows of
`round2(rowTotal × 0.22)`, and `roundingCorrection` is the
`RoundingAmount` field placed in the invoice. -/
theorem createInvoice_reconciliation (vatTaxId : String) (order : WooOrder)
    (t : ℚ) (inv : InvoiceData) (ht : order.total = some t)
    (hok : createInvoiceFromWooCommerceOrder vatTaxId order = .ok inv)
    (hne : inv.rows ≠ []) :
    inv.totalAmount + predictedTaxSum inv.rows + inv.roundingAmount = round2 t := by
  rw [createInvoiceFromWooCommerceOrder, ht] at hok
  simp only at hok
  split at hok
  · exact absurd hok (by simp)
  · have hinv : inv = assembleInvoice (round2 t)
        (adjustInvoiceRows (round2 t)
          (prepareInvoiceRowsFromWooOrder vatTaxId order)) order := by
      injection hok with h
      exact h.symm
    subst hinv
    exact assembleInvoice_reconciles _ _ _ (isCents_round2 t)

def wItemC1 : WooLineItem :=
  { name := "Muu toode", sku := some "SKU1", productId := none,
    quantity := 1, price := some 10, subtotal := none, subtotalTax := none,
    total := none, totalTax := none }

def wOrderC1 : WooOrder :=
  { id := 1736, pricesIncludeTax := true, lineItems := [wItemC1],
    shippingLines := [], couponLines := [], total := some 10,
    billingFirstName := "Malle", billingLastName := "Tammekivi" }

def wInvC1 : InvoiceData :=
  assembleInvoice (round2 10)
    (adjustInvoiceRows (round2 10) (prepareInvoiceRowsFromWooOrder "VAT" wOrderC1))
    wOrderC1

/-- Witness for C1 at a concrete order with total 10.00 and one
tax-inclusive line item priced 10.00. -/
theorem createInvoice_reconciliation_witness :
    wOrderC1.total = some 10 ∧
    createInvoiceFromWooCommerceOrder "VAT" wOrderC1 = .ok wInvC1 ∧
    wInvC1.rows ≠ [] ∧
    wInvC1.totalAmount + predictedTaxSum wInvC1.rows + wInvC1.roundingAmount =
      round2 10 := by
  have hok : createInvoiceFromWooCommerceOrder "VAT" wOrderC1 = .ok wInvC1 := by
    norm_num [createInvoiceFromWooCommerceOrder, wOrderC1, wInvC1, round2]
  have hne : wInvC1.rows ≠ [] := by
    simp [wInvC1, assembleInvoice, adjustInvoiceRows, totalDifferenceOf,
      naiveTotalOf, rowsTotal, rowTotal, prepareInvoiceRowsFromWooOrder,
      lineItemRows, wOrderC1, wItemC1, regularItemPrice, regularPriceFromPrice,
      resolveProductInfo, productMapping, vatRate, round2]
    norm_num
  exact ⟨rfl, hok, hne,
    createInvoice_reconciliation "VAT" wOrderC1 10 wInvC1 rfl hok hne⟩

/-! ## Fixed row fields (claim C9) -/

/-- C9: every invoice row emitted by the normalizer — product,
bundle-constituent, shipping, and discount rows alike — carries the same
fixed non-price fields: `DiscountPct = 0`, `DiscountAmount = 0`, `TaxId`
equal to the configured VAT tax id, `LocationCode = 1` and
`Item.Type = 3`. -/
theorem prepareInvoiceRows_fixed_fields (vatTaxId : String) (order : WooOrder)
    (row : InvoiceRow)
    (hrow : row ∈ prepareInvoiceRowsFromWooOrder vatTaxId order) :
    row.discountPct = 0 ∧ row.discountAmount = 0 ∧ row.taxId = vatTaxId ∧
      row.locationCode = 1 ∧ row.itemType = 3 := by
  simp only [prepareInvoiceRowsFromWooOrder, List.mem_append] at hrow
  rcases hrow with (hrow | hrow) | hrow
  · obtain ⟨item, _, hr⟩ := List.mem_flatMap.mp hrow
    rw [lineItemRows] at hr
    split at hr
    · simp only [expandBundle, List.mem_cons, List.not_mem_nil, or_false] at hr
      rcases hr with rfl | rfl <;> exact ⟨rfl, rfl, rfl, rfl, rfl⟩
    · simp only [List.mem_singleton] at hr
      subst hr
      exact ⟨rfl, rfl, rfl, rfl, rfl⟩
  · obtain ⟨s, _, hr⟩ := List.mem_filterMap.mp hrow
    unfold shippingRow at hr
    split at hr
    · exact absurd hr (by simp)
    · rw [Option.some_inj] at hr
      subst hr
      exact ⟨rfl, rfl, rfl, rfl, rfl⟩
  · obtain ⟨c, _, hr⟩ := List.mem_filterMap.mp hrow
    unfold couponRow at hr
    split at hr
    · exact absurd hr (by simp)
    · rw [Option.some_inj] at hr
      subst hr
      exact ⟨rfl, rfl, rfl, rfl, rfl⟩

def wOrderC9 : WooOrder :=
  { id := 2, pricesIncludeTax := false, lineItems := [],
    shippingLines := [{ total := some 5, totalTax := none }],
    couponLines := [], total := some 10,
    billingFirstName := "A", billingLastName := "B" }

def wRowC9 : InvoiceRow :=
  { itemCode := "Transport", itemDescription := "Pakiautomaat", itemType := 3,
    uomName := "tk", quantity := 1, price := 5, discountPct := 0,
    discountAmount := 0, taxId := "VAT", locationCode := 1 }

/-- Witness for C9 at a concrete order producing one shipping row. -/
theorem prepareInvoiceRows_fixed_fields_witness :
    wRowC9 ∈ prepareInvoiceRowsFromWooOrder "VAT" wOrderC9 ∧
    (wRowC9.discountPct = 0 ∧ wRowC9.discountAmount = 0 ∧
      wRowC9.taxId = "VAT" ∧ wRowC9.locationCode = 1 ∧ wRowC9.itemType = 3) := by
  have hp : shippingNetPrice false { total := some 5, totalTax := none } =
      round2 5 := rfl
  have hs : shippingRow "VAT" false { total := some 5, totalTax := none } =
      some wRowC9 := by
    unfold shippingRow
    rw [if_neg (by norm_num [round2])]
    rw [hp]
    norm_num [round2, wRowC9]
  have hrow : wRowC9 ∈ prepareInvoiceRowsFromWooOrder "VAT" wOrderC9 := by
    simp only [prepareInvoiceRowsFromWooOrder, wOrderC9, List.flatMap_nil,
      List.filterMap_nil, List.nil_append, List.append_nil]
    rw [List.filterMap_cons_some hs]
    exact List.mem_cons_self _ _
  exact ⟨hrow, prepareInvoiceRows_fixed_fields "VAT" wOrderC9 wRowC9 hrow⟩

/-! ## Tax-inclusive normalization (claim C4) -/

/-- C4: for every regular (non-bundle) line item carrying only a unit price
`P` (no subtotal), in an order with `pricesIncludeTax = true`, the
normalized pre-tax unit price equals `round2 (P / (1 + VAT_RATE))` with
`VAT_RATE = 0.22`, rounding half up at 2 decimals. -/
theorem regularItemPrice_tax_inclusive (item : WooLineItem) (P : ℚ)
    (hsub : item.subtotal = none) (hp : item.price = some P) :
    regularItemPrice true item = round2 (P / (1 + vatRate)) := by
  obtain ⟨name, sku, pid, q, price, st, stx, tot, totx⟩ := item
  simp only at hsub hp
  subst hsub
  subst hp
  have hr : regularItemPrice true
      ⟨name, sku, pid, q, some P, none, stx, tot, totx⟩ =
      round2 (P / (122 / 100)) := rfl
  rw [hr]
  norm_num [vatRate]

def wItemC4 : WooLineItem :=
  { name := "Regular product", sku := none, productId := none, quantity := 1,
    price := some 10, subtotal := none, subtotalTax := none,
    total := none, totalTax := none }

/-- Witness for C4 at a concrete item with unit price 10.00. -/
theorem regularItemPrice_tax_inclusive_witness :
    wItemC4.subtotal = none ∧ wItemC4.price = some 10 ∧
    regularItemPrice true wItemC4 = round2 (10 / (1 + vatRate)) :=
  ⟨rfl, rfl, regularItemPrice_tax_inclusive wItemC4 10 rfl rfl⟩

/-! ## Invoice numbering (`getNextInvoiceNumber`, claim C7) -/

/-- The source's `/^\d+$/` test: nonempty and all digits. -/
def isNumericInvoiceNo (s : String) : Bool :=
  !s.data.isEmpty && s.data.all Char.isDigit

/-- `parseInt(s, 10)` on an all-digit string. -/
def parseDigits (s : String) : ℕ :=
  s.data.foldl (fun a c => a * 10 + (c.toNat - 48)) 0

/-- `getNextInvoiceNumber`: the lookup outcome is the result of the
`getinvoices` request — an error (the request threw), a non-array
response, or the invoice list (modelled by its `InvoiceNo` fields);
`tsSuffix` stands for the last 6 digits of `Date.now()`. -/
def getNextInvoiceNumber (fetchResult : Except String (Option (List String)))
    (tsSuffix : String) : String :=
  match fetchResult with
  | .error _ => "ERR" ++ tsSuffix
  | .ok none => "1000"
  | .ok (some invoices) =>
    if invoices.isEmpty then "1000"
    else
      match (invoices.filter isNumericInvoiceNo).map parseDigits with
      | [] => "1000"
      | n :: ns => toString (ns.foldl max n + 1)

/-- Maximum numeric invoice number in the window (0 when none). -/
def maxNumericInvoiceNo (invoices : List String) : ℕ :=
  ((invoices.filter isNumericInvoiceNo).map parseDigits).foldl max 0

/-- C7: `getNextInvoiceNumber` returns the maximal purely-numeric invoice
number incremented by one when one exists, the fixed starting number
"1000" when the list is empty or holds no purely-numeric numbers, and an
"ERR"-prefixed placeholder when the lookup itself fails. -/
theorem getNextInvoiceNumber_spec :
    (∀ e ts, getNextInvoiceNumber (.error e) ts = "ERR" ++ ts) ∧
    (∀ ts invoices, invoices.filter isNumericInvoiceNo = [] →
      getNextInvoiceNumber (.ok (some invoices)) ts = "1000") ∧
    (∀ ts invoices, invoices.filter isNumericInvoiceNo ≠ [] →
      getNextInvoiceNumber (.ok (some invoices)) ts =
        toString (maxNumericInvoiceNo invoices + 1)) := by
  refine ⟨fun e ts => rfl, ?_, ?_⟩
  · intro ts invoices h
    cases invoices with
    | nil => rfl
    | cons b bs => simp [getNextInvoiceNumber, h]
  · intro ts invoices h
    cases hl : invoices.filter isNumericInvoiceNo with
    | nil => exact absurd hl h
    | cons a as =>
      cases invoices with
      | nil => simp at hl
      | cons b bs =>
        rw [maxNumericInvoiceNo, hl]
        simp [getNextInvoiceNumber, hl, Nat.zero_max]

/-- Witness for C7: a failing lookup, a window with no numeric numbers,
and a window whose maximum numeric number is 12. -/
theorem getNextInvoiceNumber_spec_witness :
    getNextInvoiceNumber (.error "boom") "123456" = "ERR123456" ∧
    getNextInvoiceNumber (.ok (some ["ARVE-1", ""])) "x" = "1000" ∧
    (["12", "ARVE-1", "7"].filter isNumericInvoiceNo ≠ [] ∧
      getNextInvoiceNumber (.ok (some ["12", "ARVE-1", "7"])) "x" =
        toString (maxNumericInvoiceNo ["12", "ARVE-1", "7"] + 1) ∧
      toString (maxNumericInvoiceNo ["12", "ARVE-1", "7"] + 1) = "13") :=
  ⟨getNextInvoiceNumber_spec.1 "boom" "123456",
   getNextInvoiceNumber_spec.2.1 "x" ["ARVE-1", ""] (by decide),
   by decide,
   getNextInvoiceNumber_spec.2.2 "x" ["12", "ARVE-1", "7"] (by decide),
   by decide⟩

/-! ## Webhook validation (claim C10) -/

/-- `validateWooCommerceWebhook`: `webhookSecret` is the configured secret
(`none` when not configured), `signatureHeader` the
`x-wc-webhook-signature` header, and `calculatedSignature` the outcome of
computing the body's HMAC-SHA256 (an `error` when the verification code
throws; the hash itself is opaque). -/
def validateWooCommerceWebhook (webhookSecret signatureHeader : Option String)
    (calculatedSignature : Except String String) : Bool :=
  match webhookSecret with
  | none => true
  | some _ =>
    match signatureHeader with
    | none => false
    | some signature =>
      match calculatedSignature with
      | .error _ => false
      | .ok sigCalc => signature == sigCalc

/-- C10: with no configured secret every request is accepted; with a secret,
a missing signature header, a signature different from the computed
HMAC, or an error thrown during verification are all rejected. -/
theorem validateWooCommerceWebhook_spec :
    (∀ sig sigCalc, validateWooCommerceWebhook none sig sigCalc = true) ∧
    (∀ secret sigCalc, validateWooCommerceWebhook (some secret) none sigCalc = false) ∧
    (∀ secret sig sigCalc, sig ≠ sigCalc →
      validateWooCommerceWebhook (some secret) (some sig) (.ok sigCalc) = false) ∧
    (∀ secret sig e,
      validateWooCommerceWebhook (some secret) (some sig) (.error e) = false) := by
  refine ⟨fun sig sigCalc => rfl, fun s c => rfl, fun s sig sigCalc h => ?_,
    fun s sig e => rfl⟩
  exact beq_eq_false_iff_ne.mpr h

/-- Witness for C10 at concrete secrets and signatures. -/
theorem validateWooCommerceWebhook_spec_witness :
    validateWooCommerceWebhook none none (.ok "h") = true ∧
    validateWooCommerceWebhook (some "secret") none (.ok "h") = false ∧
    (("sig" : String) ≠ "h" ∧
      validateWooCommerceWebhook (some "secret") (some "sig") (.ok "h") = false) ∧
    validateWooCommerceWebhook (some "secret") (some "sig") (.error "boom") = false :=
  ⟨validateWooCommerceWebhook_spec.1 none (.ok "h"),
   validateWooCommerceWebhook_spec.2.1 "secret" (.ok "h"),
   ⟨by decide, validateWooCommerceWebhook_spec.2.2.1 "secret" "sig" "h" (by decide)⟩,
   validateWooCommerceWebhook_spec.2.2.2 "secret" "sig" "boom"⟩

/-! ## Sync guard (`syncOrdersToInvoices`, claim C8)

The scheduler's guard is a module-level boolean `isSyncing`.  One call of
`syncOrdersToInvoices` runs atomically from entry until its first `await`:
if the flag is set it returns a "skipped" result — and the surrounding
`try`/`finally` then runs, resetting the flag; otherwise it sets the flag
and starts fetching and processing (its work phase, which suspends at
`await`s).  When a running call finishes (successfully or with an error)
its `finally` clears the flag.  A trace is a list of these atomic events. -/

inductive SyncEvent where
  | request (i : ℕ)
  | finish (i : ℕ)
deriving DecidableEq

structure SyncState where
  isSyncing : Bool
  running : List ℕ
  skipped : List ℕ
deriving DecidableEq

def initialSyncState : SyncState :=
  { isSyncing := false, running := [], skipped := [] }

/-- One atomic step of the scheduler model.  A `request` hitting a set
flag returns "skipped", but its `finally` still clears the flag; a
`request` on a clear flag sets it and enters the work phase; a `finish`
of a running call removes it and clears the flag. -/
def syncStep (s : SyncState) (e : SyncEvent) : SyncState :=
  match e with
  | .request i =>
    if s.isSyncing then
      { s with skipped := i :: s.skipped, isSyncing := false }
    else
      { s with isSyncing := true, running := i :: s.running }
  | .finish i =>
    if i ∈ s.running then
      { s with running := s.running.erase i, isSyncing := false }
    else s

def syncRun (events : List SyncEvent) : SyncState :=
  events.foldl syncStep initialSyncState

/-- C8 (code bug): the guard does not enforce at-most-one run in flight.
A request arriving while run 0 is in flight is skipped without starting
work, but its `finally` clears `isSyncing`, so a third request starts a
second concurrent run while run 0 is still in its work phase. -/
theorem syncGuard_concurrent_runs_bug :
    (syncRun [.request 0, .request 1]).skipped = [1] ∧
    (syncRun [.request 0, .request 1]).running = [0] ∧
    (syncRun [.request 0, .request 1]).isSyncing = false ∧
    (syncRun [.request 0, .request 1, .request 2]).running = [2, 0] ∧
    2 ≤ (syncRun [.request 0, .request 1, .request 2]).running.length := by
  refine ⟨rfl, rfl, rfl, rfl, ?_⟩
  decide

/-! ## Degenerate orders (claim C5) -/

theorem adjustInvoiceRows_nil (w : ℚ) : adjustInvoiceRows w [] = [] := by
  unfold adjustInvoiceRows
  split <;> rfl

/-- C5 (amended): an order whose grand total is missing or rounds to a
non-positive number — including exactly zero — is rejected with an error
before rows are considered; when the grand total is positive and the
normalizer produces no rows, the adjustment is skipped, subtotal and tax
are zero, the rounding amount equals the whole grand total, and the
invoice is still emitted. -/
theorem createInvoice_no_rows (vatTaxId : String) (order : WooOrder) (t : ℚ)
    (ht : order.total = some t)
    (hrows : prepareInvoiceRowsFromWooOrder vatTaxId order = []) :
    (round2 t ≤ 0 →
      createInvoiceFromWooCommerceOrder vatTaxId order =
        .error "Invalid WooCommerce order total") ∧
    (0 < round2 t →
      ∃ inv, createInvoiceFromWooCommerceOrder vatTaxId order = .ok inv ∧
        inv.rows = [] ∧ inv.totalAmount = 0 ∧ inv.taxAmount = 0 ∧
        inv.roundingAmount = round2 t) := by
  constructor
  · intro hle
    simp only [createInvoiceFromWooCommerceOrder, ht]
    rw [if_pos hle]
  · intro hpos
    simp only [createInvoiceFromWooCommerceOrder, ht]
    rw [if_neg (not_le.mpr hpos)]
    refine ⟨_, rfl, ?_, ?_, ?_, ?_⟩ <;>
      simp [assembleInvoice, hrows, adjustInvoiceRows_nil, rowsTotal,
        predictedTaxSum, round2_zero, (isCents_round2 t).round2_eq]

def cOrderC5a : WooOrder :=
  { id := 1, pricesIncludeTax := true, lineItems := [], shippingLines := [],
    couponLines := [], total := some 0,
    billingFirstName := "A", billingLastName := "B" }

def cOrderC5b : WooOrder := { cOrderC5a with total := some 5 }

/-- Counterexample for C5 as stated: a zero grand total with zero rows is
rejected (the claim says a zero-total invoice is still emitted), and a
positive grand total with zero rows still emits an invoice (the claim
says invoice creation fails). -/
theorem createInvoice_no_rows_counterexample :
    prepareInvoiceRowsFromWooOrder "VAT" cOrderC5a = [] ∧
    createInvoiceFromWooCommerceOrder "VAT" cOrderC5a =
      .error "Invalid WooCommerce order total" ∧
    prepareInvoiceRowsFromWooOrder "VAT" cOrderC5b = [] ∧
    (createInvoiceFromWooCommerceOrder "VAT" cOrderC5b).isOk = true := by
  refine ⟨rfl, ?_, rfl, ?_⟩
  · simp only [createInvoiceFromWooCommerceOrder, cOrderC5a]
    rw [if_pos (by norm_num [round2])]
  · simp only [createInvoiceFromWooCommerceOrder, cOrderC5b, cOrderC5a]
    rw [if_neg (by norm_num [round2])]
    rfl

/-- Witness for C5 (amended) at a concrete empty order with total 5.00. -/
theorem createInvoice_no_rows_witness :
    cOrderC5b.total = some 5 ∧
    prepareInvoiceRowsFromWooOrder "VAT" cOrderC5b = [] ∧
    0 < round2 (5 : ℚ) ∧
    (∃ inv, createInvoiceFromWooCommerceOrder "VAT" cOrderC5b = .ok inv ∧
      inv.rows = [] ∧ inv.totalAmount = 0 ∧ inv.taxAmount = 0 ∧
      inv.roundingAmount = round2 5) := by
  have hpos : 0 < round2 (5 : ℚ) := by norm_num [round2]
  exact ⟨rfl, rfl, hpos,
    (createInvoice_no_rows "VAT" cOrderC5b 5 rfl rfl).2 hpos⟩

/-! ## The reconciler adjusts exactly one row (claim C3) -/

theorem findLargestFrom_le (rs : List InvoiceRow) (idx : ℕ) (bt : ℚ)
    (best : Option ℕ) (h : ∀ r ∈ rs, rowTotal r ≤ bt) :
    findLargestFrom rs idx bt best = best := by
  induction rs generalizing idx with
  | nil => rfl
  | cons r rs ih =>
    unfold findLargestFrom
    rw [if_neg (not_lt.mpr (h r (List.mem_cons_self r rs)))]
    exact ih (idx + 1) fun x hx => h x (List.mem_cons_of_mem r hx)

/-- The source's largest-row search returns the first index whose
`price × quantity` attains the maximum, provided some row beats the
running best. -/
theorem findLargestFrom_spec (rs : List InvoiceRow) (idx : ℕ) (bt : ℚ)
    (best : Option ℕ) (h : ∃ r ∈ rs, bt < rowTotal r) :
    ∃ j, ∃ hj : j < rs.length,
      findLargestFrom rs idx bt best = some (idx + j) ∧
      bt < rowTotal rs[j] ∧
      (∀ k, (hk : k < rs.length) → rowTotal rs[k] ≤ rowTotal rs[j]) ∧
      (∀ k, (hk : k < rs.length) → k < j → rowTotal rs[k] < rowTotal rs[j]) := by
  induction rs generalizing idx bt best with
  | nil => simp at h
  | cons r rs ih =>
    unfold findLargestFrom
    by_cases h1 : bt < rowTotal r
    · rw [if_pos h1]
      by_cases h2 : ∃ x ∈ rs, rowTotal r < rowTotal x
      · obtain ⟨j, hj, heq, hgt, hmax, hfirst⟩ := ih (idx + 1) (rowTotal r) (some idx) h2
        refine ⟨j + 1, by simpa using Nat.succ_lt_succ hj, ?_, ?_, ?_, ?_⟩
        · rw [heq]
          congr 1
          omega
        · simpa using h1.trans hgt
        · intro k hk
          cases k with
          | zero => simpa using hgt.le
          | succ k => simpa using hmax k (by simpa using Nat.lt_of_succ_lt_succ hk)
        · intro k hk hkj
          cases k with
          | zero => simpa using hgt
          | succ k =>
            simpa using hfirst k (by simpa using Nat.lt_of_succ_lt_succ hk)
              (Nat.lt_of_succ_lt_succ hkj)
      · push_neg at h2
        rw [findLargestFrom_le rs (idx + 1) (rowTotal r) (some idx) h2]
        refine ⟨0, by simp, by simp, by simpa using h1, ?_, ?_⟩
        · intro k hk
          cases k with
          | zero => simp
          | succ k =>
            simpa using h2 _ (rs.getElem_mem (by simpa using Nat.lt_of_succ_lt_succ hk))
        · intro k hk hkj
          exact absurd hkj (Nat.not_lt_zero k)
    · rw [if_neg h1]
      have h2 : ∃ x ∈ rs, bt < rowTotal x := by
        obtain ⟨x, hx, hbx⟩ := h
        rcases List.mem_cons.mp hx with rfl | hx2
        · exact absurd hbx h1
        · exact ⟨x, hx2, hbx⟩
      obtain ⟨j, hj, heq, hgt, hmax, hfirst⟩ := ih (idx + 1) bt best h2
      refine ⟨j + 1, by simpa using Nat.succ_lt_succ hj, ?_, by simpa using hgt, ?_, ?_⟩
      · rw [heq]
        congr 1
        omega
      · intro k hk
        cases k with
        | zero => simpa using ((not_lt.mp h1).trans hgt.le)
        | succ k => simpa using hmax k (by simpa using Nat.lt_of_succ_lt_succ hk)
      · intro k hk hkj
        cases k with
        | zero => simpa using lt_of_le_of_lt (not_lt.mp h1) hgt
        | succ k =>
          simpa using hfirst k (by simpa using Nat.lt_of_succ_lt_succ hk)
            (Nat.lt_of_succ_lt_succ hkj)

/-- C3 (amended): when the reconciler finds a nonzero difference and some
row has a strictly positive `price × quantity`, it rewrites the unit
price of exactly one row — the first row attaining the maximal
`price × quantity` — and every other row (and every non-price field of
the adjusted row, via `List.set` of a price-only update) is unchanged
from the normalizer's output.  (When no row's product is positive the
source skips the adjustment and all rows are unchanged; see the
counterexample.) -/
theorem adjustInvoiceRows_adjusts_first_largest (w : ℚ) (rows : List InvoiceRow)
    (hd : totalDifferenceOf w rows ≠ 0)
    (hpos : ∃ r ∈ rows, 0 < rowTotal r) :
    ∃ i, ∃ hi : i < rows.length, ∃ p,
      adjustInvoiceRows w rows = rows.set i { rows[i] with price := p } ∧
      0 < rowTotal rows[i] ∧
      (∀ k, (hk : k < rows.length) → rowTotal rows[k] ≤ rowTotal rows[i]) ∧
      (∀ k, (hk : k < rows.length) → k < i → rowTotal rows[k] < rowTotal rows[i]) := by
  obtain ⟨j, hj, heq, hgt, hmax, hfirst⟩ := findLargestFrom_spec rows 0 0 none hpos
  have hidx : findLargestIndex rows = some j := by
    simpa [findLargestIndex] using heq
  refine ⟨j, hj,
    round2 (round2 (rows[j].price * (rows[j].quantity : ℚ) +
      round2 (round2 (w / (1 + vatRate)) - round2 (rowsTotal rows))) /
        (rows[j].quantity : ℚ)), ?_, hgt, hmax, hfirst⟩
  unfold adjustInvoiceRows
  rw [if_neg hd]
  simp only [hidx, List.getElem?_eq_getElem hj]

def cRowC3 : InvoiceRow :=
  { itemCode := "X", itemDescription := "Degenerate", itemType := 3,
    uomName := "tk", quantity := 1, price := 0, discountPct := 0,
    discountAmount := 0, taxId := "VAT", locationCode := 1 }

/-- Counterexample for C3 as stated: with a single zero-price row and
source total 1.00 the difference is nonzero, yet the reconciler alters
no row at all (no row has a positive `price × quantity`, so the search
finds no index to adjust). -/
theorem adjustInvoiceRows_counterexample :
    totalDifferenceOf 1 [cRowC3] ≠ 0 ∧
    adjustInvoiceRows 1 [cRowC3] = [cRowC3] := by
  have hd : totalDifferenceOf 1 [cRowC3] = 1 := by
    norm_num [totalDifferenceOf, naiveTotalOf, rowsTotal, rowTotal, cRowC3, round2]
  have hnone : findLargestIndex [cRowC3] = none := by
    unfold findLargestIndex findLargestFrom
    rw [if_neg (by norm_num [rowTotal, cRowC3])]
    rfl
  constructor
  · rw [hd]
    norm_num
  · unfold adjustInvoiceRows
    rw [hd, if_neg one_ne_zero, hnone]

def wRowsC3 : List InvoiceRow :=
  [{ itemCode := "A", itemDescription := "Small", itemType := 3,
     uomName := "tk", quantity := 1, price := 1, discountPct := 0,
     discountAmount := 0, taxId := "VAT", locationCode := 1 },
   { itemCode := "B", itemDescription := "Large", itemType := 3,
     uomName := "tk", quantity := 1, price := 2, discountPct := 0,
     discountAmount := 0, taxId := "VAT", locationCode := 1 }]

/-- Witness for C3 (amended) at two rows totalling 3.00 against source
total 4.00 (difference 0.34). -/
theorem adjustInvoiceRows_adjusts_first_largest_witness :
    totalDifferenceOf 4 wRowsC3 ≠ 0 ∧
    (∃ r ∈ wRowsC3, 0 < rowTotal r) ∧
    (∃ i, ∃ hi : i < wRowsC3.length, ∃ p,
      adjustInvoiceRows 4 wRowsC3 = wRowsC3.set i { wRowsC3[i] with price := p } ∧
      0 < rowTotal wRowsC3[i] ∧
      (∀ k, (hk : k < wRowsC3.length) →
        rowTotal wRowsC3[k] ≤ rowTotal wRowsC3[i]) ∧
      (∀ k, (hk : k < wRowsC3.length) → k < i →
        rowTotal wRowsC3[k] < rowTotal wRowsC3[i])) := by
  have hd : totalDifferenceOf 4 wRowsC3 ≠ 0 := by
    norm_num [totalDifferenceOf, naiveTotalOf, rowsTotal, rowTotal, wRowsC3,
      round2, vatRate]
  have hpos : ∃ r ∈ wRowsC3, 0 < rowTotal r := by
    refine ⟨wRowsC3[0], by simp [wRowsC3], ?_⟩
    norm_num [rowTotal, wRowsC3]
  exact ⟨hd, hpos, adjustInvoiceRows_adjusts_first_largest 4 wRowsC3 hd hpos⟩

/-! ## Bundle expansion conservation (claim C2) -/

def cItemC2 : WooLineItem :=
  { name := "Toataimede Uus Algus", sku := none, productId := none,
    quantity := 1, price := none, subtotal := none, subtotalTax := none,
    total := some (1002 / 100), totalTax := none }

/-- C2 (code bug): at a reachable input — a tax-inclusive order whose
bundle line has `total = "10.02"` and no tax field, so the bundle's
pre-tax total is `round2(10.02 / 1.22) = 8.21` — the discount-factor
rounding leaves a residual of 0.01, the residual-correction step rounds
the per-unit adjustment `0.01 × (8.60/14.58) / 4` to 0.00, and the
expanded lines still sum to 8.20 ≠ 8.21.  The source's own log lines
("Fine-tuned prices to match total exactly", "should equal") and the
spec both require an exact match. -/
theorem expandBundle_residual_correction_bug :
    bundleTotalPrice true cItemC2 = 821 / 100 ∧
    bundleDifference true cItemC2 = 1 / 100 ∧
    rowsTotal (expandBundle "VAT" true cItemC2) = 820 / 100 ∧
    rowsTotal (expandBundle "VAT" true cItemC2) ≠ bundleTotalPrice true cItemC2 := by
  have hq : cItemC2.quantity = 1 := rfl
  have h1 : bundleTotalPrice true cItemC2 = 821 / 100 := by
    norm_num [bundleTotalPrice, cItemC2, round2]
  have hsp : discountedSoilPrice true cItemC2 = 121 / 100 := by
    norm_num [discountedSoilPrice, bundleDiscountFactor, bundleTotalRetailValue,
      h1, hq, round2]
  have hcp : discountedConcentratePrice true cItemC2 = 168 / 100 := by
    norm_num [discountedConcentratePrice, bundleDiscountFactor,
      bundleTotalRetailValue, h1, hq, round2]
  have hdiff : bundleDifference true cItemC2 = 1 / 100 := by
    norm_num [bundleDifference, h1, hsp, hcp, hq, round2]
  have hfsp : finalSoilPrice true cItemC2 = 121 / 100 := by
    unfold finalSoilPrice
    rw [hdiff, if_pos (by norm_num)]
    norm_num [hsp, bundleTotalRetailValue, hq, round2]
  have h3 : rowsTotal (expandBundle "VAT" true cItemC2) = 820 / 100 := by
    norm_num [rowsTotal, rowTotal, expandBundle, hfsp, hcp, hq]
  refine ⟨h1, hdiff, h3, ?_⟩
  rw [h3, h1]
  norm_num

/-! ## Invoice comment round-trip (claim C6)

JavaScript strings are modelled as lists of characters.  `trimChars` is
`String.prototype.trim` restricted to ASCII whitespace. -/

/-- First `#` followed by at least one digit; captures the maximal digit
run after it (the `/#(\d+)/` regex of `extractOrderNumberFromHComment`). -/
def findOrderNumber : List Char → Option (List Char)
  | [] => none
  | c :: rest =>
    if c = '#' then
      if (rest.takeWhile Char.isDigit).isEmpty then findOrderNumber rest
      else some (rest.takeWhile Char.isDigit)
    else findOrderNumber rest

/-- `extractOrderNumberFromHComment`: `null` on a falsy comment, else the
first `#<digits>` capture (or `null` when the pattern never matches). -/
def extractOrderNumberFromHComment (comment : List Char) : Option (List Char) :=
  if comment = [] then none else findOrderNumber comment

/-- `comment.split('\n')`, with JavaScript's semantics (empty segments kept). -/
def splitLines : List Char → List (List Char)
  | [] => [[]]
  | c :: rest =>
    if c = '\n' then [] :: splitLines rest
    else
      match splitLines rest with
      | [] => [[c]]
      | h :: t => (c :: h) :: t

/-- `String.prototype.trim`: drop whitespace from both ends. -/
def trimChars (l : List Char) : List Char :=
  ((l.dropWhile Char.isWhitespace).reverse.dropWhile Char.isWhitespace).reverse

/-- Case-insensitive literal prefix match; returns the rest of the input. -/
def stripCI : List Char → List Char → Option (List Char)
  | [], l => some l
  | _ :: _, [] => none
  | p :: ps, c :: cs => if c.toLower = p then stripCI ps cs else none

/-- The single-line fallback regex `/Ussimo\s+#\d+\s+(.+)/i` tried at one
position: literal `ussimo`, one or more whitespace, `#`, one or more
digits, one or more whitespace (giving back characters so that `(.+)`
keeps at least one), then the capture. -/
def matchUssimoFallbackAt (l : List Char) : Option (List Char) :=
  match stripCI "ussimo".data l with
  | none => none
  | some r1 =>
    if (r1.takeWhile Char.isWhitespace).isEmpty then none
    else
      match r1.dropWhile Char.isWhitespace with
      | '#' :: r3 =>
        if (r3.takeWhile Char.isDigit).isEmpty then none
        else
          let r4 := r3.dropWhile Char.isDigit
          let k := min (r4.takeWhile Char.isWhitespace).length (r4.length - 1)
          if k = 0 then none else some (r4.drop k)
      | _ => none

/-- The fallback regex search (first position where it matches). -/
def searchUssimoFallback : List Char → Option (List Char)
  | [] => none
  | c :: rest =>
    match matchUssimoFallbackAt (c :: rest) with
    | some r => some r
    | none => searchUssimoFallback rest

/-- `extractCustomerNameFromHComment`: last line trimmed when the comment
has at least three lines; the fallback regex (or the whole trimmed
comment) on a single-line comment; the whole trimmed comment otherwise. -/
def extractCustomerNameFromHComment (comment : List Char) : Option (List Char) :=
  if comment = [] then none
  else
    if 3 ≤ (splitLines comment).length then
      some (trimChars ((splitLines comment).getLastD []))
    else if (splitLines comment).length = 1 then
      match searchUssimoFallback comment with
      | some captured => some (trimChars captured)
      | none => some (trimChars comment)
    else some (trimChars comment)

theorem takeWhile_append_cons {p : Char → Bool} (xs : List Char) (b : Char)
    (rest : List Char) (hx : ∀ c ∈ xs, p c = true) (hb : p b = false) :
    (xs ++ b :: rest).takeWhile p = xs := by
  induction xs with
  | nil => simp [List.takeWhile_cons, hb]
  | cons a as ih =>
    simp [List.takeWhile_cons, hx a (List.mem_cons_self a as),
      ih fun c hc => hx c (List.mem_cons_of_mem a hc)]

theorem findOrderNumber_mkHComment (id name : List Char) (hid : id ≠ [])
    (hdig : ∀ c ∈ id, c.isDigit = true) :
    findOrderNumber (mkHComment id name) = some id := by
  have hrun : (id ++ '\n' :: name).takeWhile Char.isDigit = id :=
    takeWhile_append_cons id '\n' name hdig (by decide)
  have hemp : id.isEmpty = false := by
    cases id with
    | nil => exact absurd rfl hid
    | cons a as => rfl
  simp [mkHComment, findOrderNumber, hrun, hemp]

theorem splitLines_no_newline (xs : List Char) (h : '\n' ∉ xs) :
    splitLines xs = [xs] := by
  induction xs with
  | nil => rfl
  | cons c cs ih =>
    rw [List.mem_cons, not_or] at h
    unfold splitLines
    rw [if_neg fun hc => h.1 hc.symm, ih h.2]

theorem splitLines_append_newline (xs rest : List Char) (h : '\n' ∉ xs) :
    splitLines (xs ++ '\n' :: rest) = xs :: splitLines rest := by
  induction xs with
  | nil => simp [splitLines]
  | cons c cs ih =>
    rw [List.mem_cons, not_or] at h
    rw [List.cons_append, splitLines, if_neg fun hc => h.1 hc.symm, ih h.2]

theorem extractCustomerName_mkHComment (id name : List Char)
    (hidnl : '\n' ∉ id) (hnl : '\n' ∉ name) :
    extractCustomerNameFromHComment (mkHComment id name) =
      some (trimChars name) := by
  have h1 : mkHComment id name =
      ('U' :: 's' :: 's' :: 'i' :: 'm' :: 'o' :: ' ' :: []) ++ '\n' ::
        (('#' :: id) ++ '\n' :: name) := by
    simp [mkHComment]
  have hsplit : splitLines (mkHComment id name) =
      ['U', 's', 's', 'i', 'm', 'o', ' '] :: ('#' :: id) :: [name] := by
    rw [h1, splitLines_append_newline _ _ (by decide),
      splitLines_append_newline ('#' :: id) name (by simp [hidnl]),
      splitLines_no_newline name hnl]
  unfold extractCustomerNameFromHComment
  rw [if_neg (by simp [mkHComment]), hsplit]
  simp

/-- C6 (amended): for every nonempty all-digit order id and every customer
name containing neither a newline nor `#` followed by digits, and equal
to its own trim, assembling the comment `Ussimo \n#<orderId>\n<name>`
and applying the two extraction functions returns exactly that order id
and exactly that customer name. -/
theorem hcommentRoundtrip (id name : List Char) (hid : id ≠ [])
    (hdig : ∀ c ∈ id, c.isDigit = true)
    (hnl : '\n' ∉ name)
    (hnohash : findOrderNumber name = none)
    (htrim : trimChars name = name) :
    extractOrderNumberFromHComment (mkHComment id name) = some id ∧
    extractCustomerNameFromHComment (mkHComment id name) = some name := by
  have hidnl : '\n' ∉ id := fun hm => absurd (hdig '\n' hm) (by decide)
  constructor
  · rw [extractOrderNumberFromHComment, if_neg (by simp [mkHComment])]
    exact findOrderNumber_mkHComment id name hid hdig
  · rw [extractCustomerName_mkHComment id name hidnl hnl, htrim]

/-- Counterexample for C6 as stated: a customer name with surrounding
whitespace (no newline, no `#<digits>`) does not round-trip — the
extraction trims it — and the empty order id (vacuously all digits)
does not round-trip either — the regex finds no digit run. -/
theorem hcommentRoundtrip_counterexample :
    ((∀ c ∈ "1736".data, c.isDigit = true) ∧ '\n' ∉ " Mari ".data ∧
      findOrderNumber " Mari ".data = none ∧
      extractCustomerNameFromHComment (mkHComment "1736".data " Mari ".data) =
        some "Mari".data ∧
      some "Mari".data ≠ some " Mari ".data) ∧
    ((∀ c ∈ ([] : List Char), c.isDigit = true) ∧
      extractOrderNumberFromHComment (mkHComment [] "Mari".data) = none) := by
  decide

/-- Witness for C6 (amended) at order id 1736 and name "Malle Tammekivi". -/
theorem hcommentRoundtrip_witness :
    ("1736".data ≠ [] ∧ (∀ c ∈ "1736".data, c.isDigit = true) ∧
      '\n' ∉ "Malle Tammekivi".data ∧
      findOrderNumber "Malle Tammekivi".data = none ∧
      trimChars "Malle Tammekivi".data = "Malle Tammekivi".data) ∧
    (extractOrderNumberFromHComment
        (mkHComment "1736".data "Malle Tammekivi".data) = some "1736".data ∧
      extractCustomerNameFromHComment
        (mkHComment "1736".data "Malle Tammekivi".data) =
          some "Malle Tammekivi".data) :=
  ⟨⟨by decide, by decide, by decide, by decide, by decide⟩,
    hcommentRoundtrip "1736".data "Malle Tammekivi".data (by decide) (by decide)
      (by decide) (by decide) (by decide)⟩

end Ussimo
